import Mathlib

/-!
Verification of the App Store ranking pipeline
(`get_app_store.py` and `json_to_db.py`).

The two Python modules are shallowly embedded below.  External
capabilities (HTTP transport, BeautifulSoup, the `json` module, SQLite)
are modelled as explicit oracles or small executable models:

* the HTTP fetch and the wall clock are oracle parameters of
  `fetch_app_info`;
* a parsed page is a `Soup` record holding the text of the two elements
  the extractor queries;
* `json.dump` / `json.load` are modelled at the level of a JSON value
  tree (`JValue`), together with an executable model of the string
  serializer used with `ensure_ascii=False`;
* the SQLite database is a pair of row lists (insertion order models
  the autoincrement id order); `date(...)` is modelled by `sqlite_date`;
  the commit-once-at-the-end transaction of the loader is modelled by
  `run_import`, which discards all effects when the import raises.

Python's `sorted` (a stable ascending sort) and SQLite's `ORDER BY`
are both modelled by the stable insertion sort `py_sorted`.
-/

/-- Leading and trailing whitespace removed (Python `str.strip`, Lean
`String.trim`), on the character list of a string. -/
def strip_chars (cs : List Char) : List Char :=
  ((cs.dropWhile Char.isWhitespace).reverse.dropWhile Char.isWhitespace).reverse

/-- The natural number denoted by a digit string. -/
def digits_to_nat (cs : List Char) : Nat :=
  cs.foldl (fun acc c => acc * 10 + (c.toNat - '0'.toNat)) 0

/-- Model of Python `int(s)`: optional surrounding whitespace, an
optional sign, then a non-empty digit string; `none` models the
`ValueError` raised on any other input (in particular `int('')`). -/
def python_int (s : String) : Option Int :=
  match strip_chars s.data with
  | [] => none
  | '-' :: rest =>
      if !rest.isEmpty && rest.all Char.isDigit then some (-(digits_to_nat rest : Int))
      else none
  | '+' :: rest =>
      if !rest.isEmpty && rest.all Char.isDigit then some (digits_to_nat rest : Int)
      else none
  | cs =>
      if cs.all Char.isDigit then some (digits_to_nat cs : Int) else none

/-- Insert `a` into `l`, before the first element `b` with `le a b`.
Used by `py_sorted`. -/
def insertSorted {α : Type} (le : α → α → Bool) (a : α) : List α → List α
  | [] => [a]
  | b :: l => if le a b then a :: b :: l else b :: insertSorted le a l

/-- Stable ascending sort (insertion sort), modelling Python's `sorted`
and SQLite's `ORDER BY` (ties keep their original relative order). -/
def py_sorted {α : Type} (le : α → α → Bool) : List α → List α
  | [] => []
  | a :: l => insertSorted le a (py_sorted le l)

/-! ## get_app_store.py -/

/-- Model of `get_taiwan_time`: current UTC time plus 8 hours, rendered with
`isoformat`.  The clock reading `utc_now` (in seconds) and the ISO
rendering function are parameters of the model. -/
def get_taiwan_time (isoformat : Nat → String) (utc_now : Nat) : String :=
  isoformat (utc_now + 8 * 3600)

/-- Model of a parsed page (BeautifulSoup document), restricted to the
two elements the extractor queries: the text of
`h1.product-header__title` and the text of the first
`a.inline-list__item`, each `none` when the element is absent. -/
structure Soup where
  productHeaderTitle : Option String
  inlineListItem : Option String
deriving DecidableEq

/-- Model of `_get_app_name`: trimmed text of the product-title heading;
`find` returning `None` makes `.get_text` raise `AttributeError`,
caught and mapped to `"未知"`. -/
def _get_app_name (soup : Soup) : String :=
  match soup.productHeaderTitle with
  | some t => String.mk (strip_chars t.data)
  | none => "未知"

/-- Model of `_get_app_ranking`: if the first inline list-item link is found,
keep only the digit characters of its text; otherwise `"999999"`. -/
def _get_app_ranking (soup : Soup) : String :=
  match soup.inlineListItem with
  | some t => String.mk (t.data.filter Char.isDigit)
  | none => "999999"

/-- One record of the list returned by `fetch_app_info` (a Python dict;
the `error` key is present exactly when the field is `some`). -/
structure ScrapeRecord where
  name : String
  ranking : String
  url : String
  timestamp : String
  error : Option String
deriving DecidableEq

/-- Oracle outcome of one loop iteration of `fetch_app_info` for one
URL: a successful GET yielding a parsed page, a `requests.RequestException`,
or any other exception raised while processing.  Each outcome carries
the UTC clock reading (seconds) at that iteration. -/
inductive FetchOutcome where
  | success (soup : Soup) (utc : Nat)
  | requestError (msg : String) (utc : Nat)
  | otherError (msg : String) (utc : Nat)
deriving DecidableEq

/-- Body of one iteration of the `for url in urls` loop of
`fetch_app_info`: build the info dict on success, and on either
`except` arm build the sentinel record with the exception's string. -/
def fetch_one (isoformat : Nat → String) (oracle : Nat → FetchOutcome)
    (i : Nat) (url : String) : ScrapeRecord :=
  match oracle i with
  | .success soup utc =>
      { name := _get_app_name soup, ranking := _get_app_ranking soup,
        url := url, timestamp := get_taiwan_time isoformat utc, error := none }
  | .requestError msg utc =>
      { name := "未知", ranking := "999999",
        url := url, timestamp := get_taiwan_time isoformat utc, error := some msg }
  | .otherError msg utc =>
      { name := "未知", ranking := "999999",
        url := url, timestamp := get_taiwan_time isoformat utc, error := some msg }

/-- The loop of `fetch_app_info`, with `i` the index of the next URL. -/
def fetch_go (isoformat : Nat → String) (oracle : Nat → FetchOutcome) :
    Nat → List String → List ScrapeRecord
  | _, [] => []
  | i, url :: rest =>
      fetch_one isoformat oracle i url :: fetch_go isoformat oracle (i + 1) rest

/-- Model of `fetch_app_info(urls)`: one record per URL, in input order; both
exception arms append a sentinel record and continue the loop. -/
def fetch_app_info (isoformat : Nat → String) (urls : List String)
    (oracle : Nat → FetchOutcome) : List ScrapeRecord :=
  fetch_go isoformat oracle 0 urls

/-- The sort key `int(x['ranking'])` (total version; `sort_apps_by_ranking`
only sorts when every ranking parses). -/
def rank_key (r : ScrapeRecord) : Int :=
  (python_int r.ranking).getD 0

/-- Model of `sort_apps_by_ranking`: `sorted(app_infos, key=lambda x: int(x['ranking']))`.
CPython precomputes the key of every element, so a single unparseable
ranking raises `ValueError` (modelled by `none`); otherwise the list is
stably sorted ascending by the integer key. -/
def sort_apps_by_ranking (app_infos : List ScrapeRecord) : Option (List ScrapeRecord) :=
  if app_infos.all (fun r => (python_int r.ranking).isSome) then
    some (py_sorted (fun a b => decide (rank_key a ≤ rank_key b)) app_infos)
  else
    none

/-! ### JSON values and the snapshot writer -/

/-- JSON value tree (only the shapes the snapshot uses). -/
inductive JValue where
  | jstr : String → JValue
  | jarr : List JValue → JValue
  | jobj : List (String × JValue) → JValue

/-- Key lookup in a JSON object (keys are unique in every object the
writer emits). -/
def json_lookup (l : List (String × JValue)) (k : String) : Option JValue :=
  match l with
  | [] => none
  | (k₀, v) :: rest => if k₀ = k then some v else json_lookup rest k

/-- The dict built for one record by `fetch_app_info`, in key insertion
order (`error`, when present, precedes `timestamp` as in the source). -/
def encode_record (r : ScrapeRecord) : JValue :=
  match r.error with
  | none =>
      .jobj [("name", .jstr r.name), ("ranking", .jstr r.ranking),
             ("url", .jstr r.url), ("timestamp", .jstr r.timestamp)]
  | some e =>
      .jobj [("name", .jstr r.name), ("ranking", .jstr r.ranking),
             ("url", .jstr r.url), ("error", .jstr e),
             ("timestamp", .jstr r.timestamp)]

/-- Model of `save_to_json`: the value serialized to the snapshot file,
`{"timestamp": get_taiwan_time(), "apps": app_infos}`; the record list
is embedded exactly as supplied by the caller. -/
def save_to_json (isoformat : Nat → String) (utc_now : Nat)
    (app_infos : List ScrapeRecord) : JValue :=
  .jobj [("timestamp", .jstr (get_taiwan_time isoformat utc_now)),
         ("apps", .jarr (app_infos.map encode_record))]

/-- Read one record back from a JSON object. -/
def decode_record (v : JValue) : Option ScrapeRecord :=
  match v with
  | .jobj fields =>
      match json_lookup fields "name", json_lookup fields "ranking",
            json_lookup fields "url", json_lookup fields "timestamp" with
      | some (.jstr name), some (.jstr ranking),
        some (.jstr url), some (.jstr timestamp) =>
          match json_lookup fields "error" with
          | some (.jstr e) =>
              some { name := name, ranking := ranking, url := url,
                     timestamp := timestamp, error := some e }
          | some _ => none
          | none =>
              some { name := name, ranking := ranking, url := url,
                     timestamp := timestamp, error := none }
      | _, _, _, _ => none
  | _ => none

/-- Read a list of records back, failing if any entry fails. -/
def decode_records : List JValue → Option (List ScrapeRecord)
  | [] => some []
  | v :: rest =>
      match decode_record v, decode_records rest with
      | some r, some rs => some (r :: rs)
      | _, _ => none

/-- Read a whole snapshot value back: batch timestamp and record list. -/
def load_snapshot (v : JValue) : Option (String × List ScrapeRecord) :=
  match v with
  | .jobj fields =>
      match json_lookup fields "timestamp", json_lookup fields "apps" with
      | some (.jstr ts), some (.jarr items) =>
          match decode_records items with
          | some recs => some (ts, recs)
          | none => none
      | _, _ => none
  | _ => none

/-- Lowercase hex digit. -/
def hexDigit (n : Nat) : Char :=
  if n < 10 then Char.ofNat ('0'.toNat + n) else Char.ofNat ('a'.toNat + n - 10)

/-- Four lowercase hex digits, as used in a JSON `\uXXXX` escape. -/
def hex4 (n : Nat) : List Char :=
  [hexDigit (n / 4096 % 16), hexDigit (n / 256 % 16),
   hexDigit (n / 16 % 16), hexDigit (n % 16)]

/-- How `json.dump(..., ensure_ascii=False)` emits one character of a
string value: only the quote, the backslash and control characters are
escaped; every other character (all non-ASCII text included) is emitted
literally. -/
def json_escape_char (c : Char) : List Char :=
  if c = '"' then ['\\', '"']
  else if c = '\\' then ['\\', '\\']
  else if c = '\n' then ['\\', 'n']
  else if c = '\t' then ['\\', 't']
  else if c = '\r' then ['\\', 'r']
  else if c = '\x08' then ['\\', 'b']
  else if c = '\x0c' then ['\\', 'f']
  else if c.toNat < 0x20 then '\\' :: 'u' :: hex4 c.toNat
  else [c]

/-- A JSON string literal as emitted with `ensure_ascii=False`. -/
def json_dump_string (s : String) : String :=
  String.mk ('"' :: (s.data.map json_escape_char).flatten ++ ['"'])

/-! ## json_to_db.py -/

/-- One entry of the `apps` array of a snapshot JSON file, as consumed
by the loader.  A field is `some` exactly when the key is present in
the JSON object (`version` is absent from everything the scraper
writes; `error` is present only in failure records). -/
structure JsonRecord where
  name : String
  version : Option String
  ranking : String
  url : String
  timestamp : String
  error : Option String
deriving DecidableEq

/-- A parsed snapshot file: `data['timestamp']` and `data['apps']`. -/
structure SnapshotJson where
  timestamp : String
  apps : List JsonRecord
deriving DecidableEq

/-- A row of the `apps` table (without the autoincrement `id`; list
position models insertion order). -/
structure AppsRow where
  name : String
  version : String
  ranking : Int
  url : String
  date : String
  timestamp : String
  created_at : String
deriving DecidableEq

/-- A row of the `errors` table. -/
structure ErrorsRow where
  name : String
  url : String
  error_message : String
  timestamp : String
  created_at : String
deriving DecidableEq

/-- The database: the two tables created by `create_database`. -/
structure DB where
  apps : List AppsRow
  errors : List ErrorsRow
deriving DecidableEq

/-- A database with both tables empty. -/
def DB.empty : DB := ⟨[], []⟩

/-- Model of SQLite `date(s)` on a text value: the `YYYY-MM-DD` prefix
when `s` is an ISO-8601 date or date-time (day/month range validation
elided), `none` (SQL NULL) otherwise. -/
def sqlite_date (s : String) : Option String :=
  match s.data with
  | y1 :: y2 :: y3 :: y4 :: '-' :: m1 :: m2 :: '-' :: d1 :: d2 :: rest =>
      if ([y1, y2, y3, y4, m1, m2, d1, d2].all Char.isDigit)
          && (rest.isEmpty || rest.head? == some 'T' || rest.head? == some ' ') then
        some (String.mk [y1, y2, y3, y4, '-', m1, m2, '-', d1, d2])
      else none
  | _ => none

/-- The value `data.get('timestamp', '').split('T')[0]`: the snapshot's batch
date, i.e. the part of the timestamp before the first `T` (the whole
string when no `T` occurs). -/
def batch_date (data : SnapshotJson) : String :=
  String.mk (data.timestamp.data.takeWhile (fun c => c != 'T'))

/-- An exception escaping the loader: `KeyError` from a missing dict
key, or `ValueError` from `int(...)` on unparseable ranking text. -/
inductive ImportErr where
  | keyError (key : String)
  | valueError (text : String)
deriving DecidableEq

/-- Body of one iteration of the insert loop of `import_json_to_db`:
a record with an `error` key goes to `errors`; otherwise `app['version']`
is looked up (raising `KeyError` when absent) and `int(app['ranking'])`
is computed (raising `ValueError` on unparseable text), then the row is
appended to `apps`. -/
def insert_one (date current_time : String) (db : DB) (app : JsonRecord) :
    Except ImportErr DB :=
  match app.error with
  | some e =>
      .ok { db with errors := db.errors ++
              [⟨app.name, app.url, e, app.timestamp, current_time⟩] }
  | none =>
      match app.version with
      | none => .error (.keyError "version")
      | some v =>
          match python_int app.ranking with
          | none => .error (.valueError app.ranking)
          | some rk =>
              .ok { db with apps := db.apps ++
                      [⟨app.name, v, rk, app.url, date, app.timestamp, current_time⟩] }

/-- The conditional overwrite step of `import_json_to_db`: when the
`apps` table already has rows with the batch date, delete the same-date
`apps` rows and the `errors` rows whose `date(timestamp)` equals the
batch date (a NULL `date(timestamp)` never compares equal). -/
def delete_phase (date : String) (db : DB) : DB :=
  if db.apps.any (fun r => r.date == date) then
    { apps := db.apps.filter (fun r => r.date != date),
      errors := db.errors.filter (fun r => sqlite_date r.timestamp != some date) }
  else db

/-- The `for app in data.get('apps', [])` loop: insert records in
order; the first exception aborts the remaining iterations. -/
def insert_loop (date current_time : String) : DB → List JsonRecord → Except ImportErr DB
  | db, [] => .ok db
  | db, app :: rest =>
      match insert_one date current_time db app with
      | .ok db' => insert_loop date current_time db' rest
      | .error e => .error e

/-- Model of `import_json_to_db`: derive the batch date, conditionally delete
same-date rows, then insert every record; any exception aborts the
remaining inserts. -/
def import_json_to_db (current_time : String) (data : SnapshotJson) (db : DB) :
    Except ImportErr DB :=
  insert_loop (batch_date data) current_time (delete_phase (batch_date data) db) data.apps

/-- The durable database state after a call to `import_json_to_db`:
the connection commits once after the loop, so an exception anywhere
before the commit leaves the database unchanged. -/
def run_import (current_time : String) (data : SnapshotJson) (db : DB) : DB :=
  match import_json_to_db current_time data db with
  | .ok db' => db'
  | .error _ => db

/-- The `apps` row inserted for a record, when the record is a non-error
record whose insert succeeds. -/
def app_row (date current_time : String) (a : JsonRecord) : Option AppsRow :=
  match a.error, a.version, python_int a.ranking with
  | none, some v, some rk =>
      some ⟨a.name, v, rk, a.url, date, a.timestamp, current_time⟩
  | _, _, _ => none

/-- The `errors` row inserted for a record carrying an `error` key. -/
def err_row (current_time : String) (a : JsonRecord) : Option ErrorsRow :=
  match a.error with
  | some e => some ⟨a.name, a.url, e, a.timestamp, current_time⟩
  | none => none

/-- The data content of an `apps` row: every column except the
database-write time `created_at` (and the autoincrement id). -/
def apps_content (r : AppsRow) : String × String × Int × String × String × String :=
  (r.name, r.version, r.ranking, r.url, r.date, r.timestamp)

/-- The data content of an `errors` row, without `created_at`. -/
def errors_content (r : ErrorsRow) : String × String × String × String :=
  (r.name, r.url, r.error_message, r.timestamp)

/-- One row of the result of `query_apps` (the selected columns). -/
structure AppsQueryRow where
  name : String
  version : String
  ranking : Int
  url : String
  date : String
  timestamp : String
deriving DecidableEq

/-- One row of the result of `query_errors`. -/
structure ErrorsQueryRow where
  name : String
  url : String
  error_message : String
  timestamp : String
deriving DecidableEq

/-- Model of `query_apps`: `SELECT name, version, ranking, url, date, timestamp
FROM apps ORDER BY ranking ASC LIMIT ?`.  `ORDER BY` is modelled as a
stable sort (SQLite leaves tie order unspecified; the model picks
insertion order). -/
def query_apps (db : DB) (limit : Nat) : List AppsQueryRow :=
  ((py_sorted (fun a b => decide (a.ranking ≤ b.ranking)) db.apps).take limit).map
    (fun r => ⟨r.name, r.version, r.ranking, r.url, r.date, r.timestamp⟩)

/-- Model of `query_errors`: `SELECT name, url, error_message, timestamp FROM
errors ORDER BY timestamp DESC LIMIT ?` (string comparison, descending). -/
def query_errors (db : DB) (limit : Nat) : List ErrorsQueryRow :=
  ((py_sorted (fun a b => decide (b.timestamp ≤ a.timestamp)) db.errors).take limit).map
    (fun r => ⟨r.name, r.url, r.error_message, r.timestamp⟩)

/-- A file of the snapshot directory, with its modification time. -/
structure FsFile where
  path : String
  mtime : Nat
deriving DecidableEq

/-- Whether a path matches the glob
`app_store_ranking/app_store_ranking_*.json` used by
`get_latest_json_file`. -/
def is_snapshot_file (p : String) : Bool :=
  List.isPrefixOf "app_store_ranking/app_store_ranking_".data p.data
    && List.isSuffixOf ".json".data p.data

/-- Model of `get_latest_json_file`: among the files matching the snapshot glob,
the path of the one with the greatest modification time (Python `max`
keeps the first of several maxima); `None` when no file matches. -/
def get_latest_json_file (fs : List FsFile) : Option String :=
  match fs.filter (fun f => is_snapshot_file f.path) with
  | [] => none
  | f :: rest =>
      some ((rest.foldl (fun best g => if best.mtime < g.mtime then g else best) f).path)

/-- Model of `main` of `json_to_db.py`, as a function of the CLI arguments (after
the program name), the snapshot directory listing, a reader giving the
parsed snapshot for a path, the wall-clock time, and the database state
(`none` when the database file does not exist yet).  When no snapshot
path can be resolved the function returns before `create_database`, so
the database state is returned untouched; otherwise the tables are
created if absent and the import runs (its effects are rolled back if
it raises, but table creation has already committed). -/
def json_to_db_main (args : List String) (fs : List FsFile)
    (readSnap : String → SnapshotJson) (current_time : String)
    (dbstate : Option DB) : Option DB :=
  let path? := match args with
    | [] => get_latest_json_file fs
    | p :: _ => some p
  match path? with
  | none => dbstate
  | some p =>
      if p = "" then dbstate
      else some (run_import current_time (readSnap p) (dbstate.getD DB.empty))

/-- The loaded-then-queried scenario snapshot: two non-error records
with rankings "5" and "1" (each carrying a `version` key, which the
loader requires). -/
def scenario_snapshot : SnapshotJson :=
  { timestamp := "2024-01-01T00:00:00",
    apps := [
      { name := "A", version := some "1.0", ranking := "5", url := "u1",
        timestamp := "2024-01-01T00:00:00", error := none },
      { name := "B", version := some "1.0", ranking := "1", url := "u2",
        timestamp := "2024-01-01T00:00:01", error := none }] }

/-- A snapshot exactly as the scraper writes it (no `version` key), so
the loader's `app['version']` lookup raises `KeyError`. -/
def c1_bad_snapshot : SnapshotJson :=
  { timestamp := "2024-01-01T00:00:00",
    apps := [
      { name := "A", version := none, ranking := "5", url := "u1",
        timestamp := "2024-01-01T00:00:00", error := none }] }

/-- A snapshot whose only record is an error record: loading it never
puts a row into the `apps` table, so the same-date overwrite check of
`import_json_to_db` (which looks at `apps` only) never fires. -/
def c2_error_only_snapshot : SnapshotJson :=
  { timestamp := "2024-01-01T00:00:00",
    apps := [
      { name := "未知", version := none, ranking := "999999", url := "u",
        timestamp := "2024-01-01T00:00:00", error := some "boom" }] }

/-- A loadable snapshot with two ranked records and one error record,
all timestamped on the batch date. -/
def c2_mixed_snapshot : SnapshotJson :=
  { timestamp := "2024-01-01T00:00:00",
    apps := [
      { name := "A", version := some "1.0", ranking := "5", url := "u1",
        timestamp := "2024-01-01T00:00:00", error := none },
      { name := "B", version := some "1.0", ranking := "1", url := "u2",
        timestamp := "2024-01-01T00:00:01", error := none },
      { name := "未知", version := none, ranking := "999999", url := "u3",
        timestamp := "2024-01-01T08:30:00", error := some "boom" }] }

/-- A parsed page whose first inline list-item link is present but
whose text contains no digit characters. -/
def c10_soup : Soup :=
  { productHeaderTitle := some "App", inlineListItem := some "榜上無名" }

/-- The record `fetch_app_info` produces for `c10_soup`: its ranking is
the empty string. -/
def c10_record : ScrapeRecord :=
  { name := "App", ranking := "", url := "u", timestamp := "ts", error := none }

/-! ## Lemmas about the stable sort -/

theorem insertSorted_perm {α : Type} (le : α → α → Bool) (a : α) :
    ∀ l : List α, List.Perm (insertSorted le a l) (a :: l) := by
  intro l
  induction l with
  | nil => simp [insertSorted]
  | cons b t ih =>
    by_cases h : le a b
    · simp [insertSorted, h]
    · simp only [insertSorted, if_neg h]
      exact (ih.cons b).trans (List.Perm.swap a b t)

theorem py_sorted_perm {α : Type} (le : α → α → Bool) :
    ∀ l : List α, List.Perm (py_sorted le l) l := by
  intro l
  induction l with
  | nil => simp [py_sorted]
  | cons a t ih =>
    exact (insertSorted_perm le a (py_sorted le t)).trans (ih.cons a)

theorem mem_insertSorted {α : Type} {le : α → α → Bool} {a x : α} {l : List α} :
    x ∈ insertSorted le a l ↔ x = a ∨ x ∈ l := by
  rw [(insertSorted_perm le a l).mem_iff]
  simp

theorem insertSorted_pairwise {α : Type} {le : α → α → Bool}
    (htotal : ∀ x y, le x y = true ∨ le y x = true)
    (htrans : ∀ x y z, le x y = true → le y z = true → le x z = true)
    (a : α) :
    ∀ l : List α, l.Pairwise (fun x y => le x y = true) →
      (insertSorted le a l).Pairwise (fun x y => le x y = true) := by
  intro l
  induction l with
  | nil => simp [insertSorted]
  | cons b t ih =>
    intro h
    rcases List.pairwise_cons.mp h with ⟨hb, ht⟩
    by_cases hab : le a b
    · simp only [insertSorted, if_pos hab]
      refine List.pairwise_cons.mpr ⟨?_, h⟩
      intro y hy
      rcases List.mem_cons.mp hy with rfl | hyt
      · exact hab
      · exact htrans a b y hab (hb y hyt)
    · simp only [insertSorted, if_neg hab]
      refine List.pairwise_cons.mpr ⟨?_, ih ht⟩
      intro y hy
      rcases mem_insertSorted.mp hy with rfl | hyt
      · rcases htotal y b with hyb | hby
        · exact absurd hyb hab
        · exact hby
      · exact hb y hyt

theorem py_sorted_pairwise {α : Type} {le : α → α → Bool}
    (htotal : ∀ x y, le x y = true ∨ le y x = true)
    (htrans : ∀ x y z, le x y = true → le y z = true → le x z = true) :
    ∀ l : List α, (py_sorted le l).Pairwise (fun x y => le x y = true) := by
  intro l
  induction l with
  | nil => simp [py_sorted]
  | cons a t ih => exact insertSorted_pairwise htotal htrans a _ ih

theorem filter_insertSorted_pos {α : Type} {le : α → α → Bool} {p : α → Bool} {a : α}
    (hpa : p a = true) (hle : ∀ b, p b = true → le a b = true) :
    ∀ l : List α, (insertSorted le a l).filter p = a :: l.filter p := by
  intro l
  induction l with
  | nil => simp [insertSorted, hpa]
  | cons b t ih =>
    by_cases h : le a b
    · simp [insertSorted, h, List.filter_cons, hpa]
    · have hpb : p b = false := by
        cases hpb : p b
        · rfl
        · exact absurd (hle b hpb) (by simpa using h)
      simp [insertSorted, if_neg h, List.filter_cons, hpb, ih]

theorem filter_insertSorted_neg {α : Type} {le : α → α → Bool} {p : α → Bool} {a : α}
    (hpa : p a = false) :
    ∀ l : List α, (insertSorted le a l).filter p = l.filter p := by
  intro l
  induction l with
  | nil => simp [insertSorted, hpa]
  | cons b t ih =>
    by_cases h : le a b
    · simp [insertSorted, h, List.filter_cons, hpa]
    · simp [insertSorted, if_neg h, List.filter_cons, ih]

theorem py_sorted_filter {α : Type} {le : α → α → Bool} {p : α → Bool}
    (hcomp : ∀ x y, p x = true → p y = true → le x y = true) :
    ∀ l : List α, (py_sorted le l).filter p = l.filter p := by
  intro l
  induction l with
  | nil => simp [py_sorted]
  | cons a t ih =>
    cases hpa : p a
    · rw [py_sorted, filter_insertSorted_neg hpa, ih, List.filter_cons]
      simp [hpa]
    · rw [py_sorted, filter_insertSorted_pos hpa (fun b hb => hcomp a b hpa hb), ih,
        List.filter_cons]
      simp [hpa]

/-! ## Lemmas about the fetcher -/

theorem fetch_one_url (isoformat : Nat → String) (oracle : Nat → FetchOutcome)
    (i : Nat) (url : String) : (fetch_one isoformat oracle i url).url = url := by
  rw [fetch_one]
  rcases oracle i with ⟨s, u⟩ | ⟨m, u⟩ | ⟨m, u⟩ <;> rfl

theorem fetch_go_length (isoformat : Nat → String) (oracle : Nat → FetchOutcome) :
    ∀ (k : Nat) (urls : List String),
      (fetch_go isoformat oracle k urls).length = urls.length := by
  intro k urls
  induction urls generalizing k with
  | nil => rfl
  | cons u rest ih => simp [fetch_go, ih]

theorem fetch_go_map_url (isoformat : Nat → String) (oracle : Nat → FetchOutcome) :
    ∀ (k : Nat) (urls : List String),
      (fetch_go isoformat oracle k urls).map ScrapeRecord.url = urls := by
  intro k urls
  induction urls generalizing k with
  | nil => rfl
  | cons u rest ih => simp [fetch_go, fetch_one_url, ih]

theorem fetch_go_get (isoformat : Nat → String) (oracle : Nat → FetchOutcome) :
    ∀ (urls : List String) (k i : Nat) (h : i < urls.length)
      (h₂ : i < (fetch_go isoformat oracle k urls).length),
      (fetch_go isoformat oracle k urls).get ⟨i, h₂⟩ =
        fetch_one isoformat oracle (k + i) (urls.get ⟨i, h⟩) := by
  intro urls
  induction urls with
  | nil => intro k i h; simp at h
  | cons u rest ih =>
    intro k i h h₂
    cases i with
    | zero => simp [fetch_go]
    | succ j =>
      have hj : j < rest.length := by simpa using h
      have := ih (k + 1) j hj (by simpa [fetch_go_length] using hj)
      simpa [fetch_go, Nat.add_assoc, Nat.add_comm 1 j] using this

theorem fetch_go_mem (isoformat : Nat → String) (oracle : Nat → FetchOutcome) :
    ∀ (urls : List String) (k : Nat) (r : ScrapeRecord),
      r ∈ fetch_go isoformat oracle k urls →
      ∃ i url, r = fetch_one isoformat oracle i url := by
  intro urls
  induction urls with
  | nil => intro k r hr; simp [fetch_go] at hr
  | cons u rest ih =>
    intro k r hr
    rcases List.mem_cons.mp hr with rfl | hr
    · exact ⟨k, u, rfl⟩
    · exact ih (k + 1) r hr

theorem fetch_app_info_get (isoformat : Nat → String) (urls : List String)
    (oracle : Nat → FetchOutcome) (i : Nat) (h : i < urls.length)
    (h₂ : i < (fetch_app_info isoformat urls oracle).length) :
    (fetch_app_info isoformat urls oracle).get ⟨i, h₂⟩ =
      fetch_one isoformat oracle i (urls.get ⟨i, h⟩) := by
  have h₃ : i < (fetch_go isoformat oracle 0 urls).length := h₂
  calc (fetch_app_info isoformat urls oracle).get ⟨i, h₂⟩
      = (fetch_go isoformat oracle 0 urls).get ⟨i, h₃⟩ := rfl
    _ = fetch_one isoformat oracle (0 + i) (urls.get ⟨i, h⟩) :=
        fetch_go_get isoformat oracle urls 0 i h h₃
    _ = fetch_one isoformat oracle i (urls.get ⟨i, h⟩) := by rw [Nat.zero_add]

/-! ## Claims C3, C4, C5, C6, C10 -/

/-- C3 (counterexample): the claim says the ranking extraction returns
`"999999"` whenever the digit-filtered string is empty, but on a page
whose inline list-item link is present with digit-free text the
extraction returns the empty string, not `"999999"`. -/
theorem c3_counterexample :
    (Soup.mk none (some "榜上無名")).inlineListItem.isSome = true ∧
    _get_app_ranking (Soup.mk none (some "榜上無名")) = "" ∧
    _get_app_ranking (Soup.mk none (some "榜上無名")) ≠ "999999" := by
  decide

/-- C3 (amended): for every parsed document, `_get_app_ranking` returns
the digit characters of the first inline list-item link's text —
possibly the empty string — when that element is present, and returns
`"999999"` exactly when the element is absent; being a total function
of the document, it never raises. -/
theorem c3_amended_ranking (soup : Soup) :
    (∀ t, soup.inlineListItem = some t →
      _get_app_ranking soup = String.mk (t.data.filter Char.isDigit)) ∧
    (soup.inlineListItem = none → _get_app_ranking soup = "999999") := by
  constructor
  · intro t ht
    simp [_get_app_ranking, ht]
  · intro ht
    simp [_get_app_ranking, ht]

/-- Witness for C3 (amended), at a page with text `"No. 12"` and at a
page lacking the element. -/
theorem c3_amended_ranking_witness :
    _get_app_ranking (Soup.mk none (some "No. 12")) =
      String.mk ("No. 12".data.filter Char.isDigit) ∧
    _get_app_ranking (Soup.mk none none) = "999999" :=
  ⟨(c3_amended_ranking (Soup.mk none (some "No. 12"))).1 "No. 12" rfl,
   (c3_amended_ranking (Soup.mk none none)).2 rfl⟩

/-- C4: for every input URL list of length N, `fetch_app_info` returns
exactly N records, one per input URL in the same order, and a transport
or processing failure at position `i` is converted into a record whose
`error` field holds the failure's message while the remaining URLs are
still processed; the function is total, so it never raises. -/
theorem c4_fetch_shape (isoformat : Nat → String) (urls : List String)
    (oracle : Nat → FetchOutcome) (i : Nat) (h : i < urls.length) :
    (fetch_app_info isoformat urls oracle).length = urls.length ∧
    (fetch_app_info isoformat urls oracle).map ScrapeRecord.url = urls ∧
    ∀ msg utc,
      (oracle i = FetchOutcome.requestError msg utc ∨
        oracle i = FetchOutcome.otherError msg utc) →
      ((fetch_app_info isoformat urls oracle).get
        ⟨i, by rw [fetch_app_info, fetch_go_length]; exact h⟩).error = some msg := by
  refine ⟨fetch_go_length isoformat oracle 0 urls, fetch_go_map_url isoformat oracle 0 urls, ?_⟩
  intro msg utc hor
  rw [fetch_app_info_get isoformat urls oracle i h]
  rcases hor with horc | horc <;> simp [fetch_one, horc]

/-- Witness for C4: a two-URL run whose second fetch raises a transport
error still yields two records, in order, the second being a sentinel
error record. -/
theorem c4_fetch_shape_witness :
    (1 : Nat) < (["u1", "u2"] : List String).length ∧
    (fetch_app_info (fun _ => "ts") ["u1", "u2"]
        (fun i => if i = 0 then FetchOutcome.success (Soup.mk (some "A") none) 0
                  else FetchOutcome.requestError "boom" 7)).length = 2 ∧
    ((fetch_app_info (fun _ => "ts") ["u1", "u2"]
        (fun i => if i = 0 then FetchOutcome.success (Soup.mk (some "A") none) 0
                  else FetchOutcome.requestError "boom" 7)).get
      ⟨1, by decide⟩).error = some "boom" :=
  ⟨by decide,
   (c4_fetch_shape (fun _ => "ts") ["u1", "u2"] _ 1 (by decide)).1,
   (c4_fetch_shape (fun _ => "ts") ["u1", "u2"] _ 1 (by decide)).2.2 "boom" 7 (Or.inl rfl)⟩

/-- C5: every record produced by `fetch_app_info` whose `error` field is
present carries `ranking = "999999"`, `name = "未知"`, the failure's
message string in `error`, and a timestamp obtained from
`get_taiwan_time` (UTC clock + 8 hours) at that iteration. -/
theorem c5_error_record_sentinels (isoformat : Nat → String) (urls : List String)
    (oracle : Nat → FetchOutcome) (r : ScrapeRecord) (msg : String)
    (hmem : r ∈ fetch_app_info isoformat urls oracle) (herr : r.error = some msg) :
    r.ranking = "999999" ∧ r.name = "未知" ∧
    ∃ i utc,
      (oracle i = FetchOutcome.requestError msg utc ∨
        oracle i = FetchOutcome.otherError msg utc) ∧
      r.timestamp = get_taiwan_time isoformat utc := by
  obtain ⟨i, url, rfl⟩ := fetch_go_mem isoformat oracle urls 0 r hmem
  rcases horc : oracle i with ⟨soup, utc⟩ | ⟨m, utc⟩ | ⟨m, utc⟩
  · simp [fetch_one, horc] at herr
  · simp [fetch_one, horc] at herr ⊢
    exact ⟨i, utc, Or.inl (by rw [horc, herr]), rfl⟩
  · simp [fetch_one, horc] at herr ⊢
    exact ⟨i, utc, Or.inr (by rw [horc, herr]), rfl⟩

/-- Witness for C5: the sentinel record of a failing one-URL run. -/
theorem c5_error_record_sentinels_witness :
    (fetch_one (fun _ => "ts") (fun _ => FetchOutcome.otherError "oops" 3) 0 "u"
        ∈ fetch_app_info (fun _ => "ts") ["u"] (fun _ => FetchOutcome.otherError "oops" 3)) ∧
    (fetch_one (fun _ => "ts") (fun _ => FetchOutcome.otherError "oops" 3) 0 "u").ranking
      = "999999" :=
  ⟨List.mem_cons_self _ _,
   (c5_error_record_sentinels (fun _ => "ts") ["u"] (fun _ => FetchOutcome.otherError "oops" 3)
      _ "oops" (List.mem_cons_self _ _) rfl).1⟩

/-- C6: when every record's ranking parses as an integer,
`sort_apps_by_ranking` succeeds and returns the records sorted
ascending by `int(ranking)`; the sort is a permutation of the input and
is stable — records with an equal ranking key keep their relative
input order. -/
theorem c6_sort_sorted_stable (rs : List ScrapeRecord)
    (h : ∀ r ∈ rs, (python_int r.ranking).isSome = true) :
    ∃ out, sort_apps_by_ranking rs = some out ∧
      List.Perm out rs ∧
      out.Pairwise (fun a b => rank_key a ≤ rank_key b) ∧
      ∀ k : Int,
        out.filter (fun r => decide (python_int r.ranking = some k)) =
          rs.filter (fun r => decide (python_int r.ranking = some k)) := by
  have htotal : ∀ x y : ScrapeRecord,
      decide (rank_key x ≤ rank_key y) = true ∨ decide (rank_key y ≤ rank_key x) = true := by
    intro x y
    rcases le_total (rank_key x) (rank_key y) with hxy | hyx
    · exact Or.inl (decide_eq_true hxy)
    · exact Or.inr (decide_eq_true hyx)
  have htrans : ∀ x y z : ScrapeRecord,
      decide (rank_key x ≤ rank_key y) = true → decide (rank_key y ≤ rank_key z) = true →
      decide (rank_key x ≤ rank_key z) = true := by
    intro x y z hxy hyz
    exact decide_eq_true (le_trans (of_decide_eq_true hxy) (of_decide_eq_true hyz))
  refine ⟨py_sorted (fun a b => decide (rank_key a ≤ rank_key b)) rs, ?_, ?_, ?_, ?_⟩
  · rw [sort_apps_by_ranking, if_pos (List.all_eq_true.mpr h)]
  · exact py_sorted_perm _ rs
  · exact (py_sorted_pairwise htotal htrans rs).imp (fun hab => of_decide_eq_true hab)
  · intro k
    refine py_sorted_filter ?_ rs
    intro x y hx hy
    have hx' : python_int x.ranking = some k := of_decide_eq_true hx
    have hy' : python_int y.ranking = some k := of_decide_eq_true hy
    have : rank_key x = rank_key y := by simp [rank_key, hx', hy']
    exact decide_eq_true (le_of_eq this)

/-- Witness for C6, on two records with rankings `"2"` and `"1"`. -/
theorem c6_sort_sorted_stable_witness :
    (∀ r ∈ ([⟨"A", "2", "u1", "t1", none⟩, ⟨"B", "1", "u2", "t2", none⟩] :
        List ScrapeRecord), (python_int r.ranking).isSome = true) ∧
    (∃ out, sort_apps_by_ranking
        [⟨"A", "2", "u1", "t1", none⟩, ⟨"B", "1", "u2", "t2", none⟩] = some out ∧
      List.Perm out [⟨"A", "2", "u1", "t1", none⟩, ⟨"B", "1", "u2", "t2", none⟩] ∧
      out.Pairwise (fun a b => rank_key a ≤ rank_key b) ∧
      ∀ k : Int,
        out.filter (fun r => decide (python_int r.ranking = some k)) =
          [⟨"A", "2", "u1", "t1", none⟩, ⟨"B", "1", "u2", "t2", none⟩].filter
            (fun r => decide (python_int r.ranking = some k))) :=
  ⟨by decide, c6_sort_sorted_stable _ (by decide)⟩

/-- C10: the pipeline can produce a record on which
`sort_apps_by_ranking` raises instead of sorting: on a page whose
ranking element is present with digit-free text, `_get_app_ranking`
returns the empty string, the fetched record carries `ranking = ""`,
and `int('')` raises `ValueError` inside the sort key (modelled by
`none`), so the "failed entries sort last" guarantee fails for it. -/
theorem c10_empty_ranking_breaks_sort :
    _get_app_ranking c10_soup = "" ∧
    fetch_app_info (fun _ => "ts") ["u"] (fun _ => FetchOutcome.success c10_soup 0)
      = [c10_record] ∧
    python_int c10_record.ranking = none ∧
    sort_apps_by_ranking [c10_record] = none := by
  decide

/-! ## Lemmas about the loader -/

theorem insert_loop_error (d t : String) :
    ∀ (l : List JsonRecord) (db : DB),
      (∃ a ∈ l, a.error = none ∧ a.version = none) →
      ∃ e, insert_loop d t db l = Except.error e := by
  intro l
  induction l with
  | nil => intro db h; simp at h
  | cons a rest ih =>
    intro db h
    rcases h with ⟨b, hb, hbe, hbv⟩
    rcases List.mem_cons.mp hb with rfl | hbrest
    · refine ⟨ImportErr.keyError "version", ?_⟩
      rw [insert_loop]
      have hone : insert_one d t db b = Except.error (ImportErr.keyError "version") := by
        simp [insert_one, hbe, hbv]
      rw [hone]
    · rw [insert_loop]
      cases hone : insert_one d t db a with
      | error e => exact ⟨e, rfl⟩
      | ok db' => exact ih db' ⟨b, hbrest, hbe, hbv⟩

theorem insert_loop_ok (d t : String) :
    ∀ (l : List JsonRecord) (A : List AppsRow) (E : List ErrorsRow),
      (∀ a ∈ l, a.error = none →
        a.version.isSome = true ∧ (python_int a.ranking).isSome = true) →
      insert_loop d t ⟨A, E⟩ l =
        Except.ok ⟨A ++ l.filterMap (app_row d t), E ++ l.filterMap (err_row t)⟩ := by
  intro l
  induction l with
  | nil => intro A E h; simp [insert_loop]
  | cons a rest ih =>
    intro A E h
    cases hae : a.error with
    | some e =>
      have hone : insert_one d t ⟨A, E⟩ a =
          Except.ok ⟨A, E ++ [⟨a.name, a.url, e, a.timestamp, t⟩]⟩ := by
        simp [insert_one, hae]
      have hstep : insert_loop d t ⟨A, E⟩ (a :: rest) =
          insert_loop d t ⟨A, E ++ [⟨a.name, a.url, e, a.timestamp, t⟩]⟩ rest := by
        rw [insert_loop, hone]
      have hrow : app_row d t a = none := by simp [app_row, hae]
      have herow : err_row t a = some ⟨a.name, a.url, e, a.timestamp, t⟩ := by
        simp [err_row, hae]
      have hih := ih A (E ++ [⟨a.name, a.url, e, a.timestamp, t⟩])
        (fun b hb hbe => h b (List.mem_cons_of_mem a hb) hbe)
      rw [hstep, hih]
      simp [List.filterMap_cons, hrow, herow, List.append_assoc]
    | none =>
      obtain ⟨hv, hr⟩ := h a (List.mem_cons_self a rest) hae
      obtain ⟨v, hav⟩ := Option.isSome_iff_exists.mp hv
      obtain ⟨rk, hark⟩ := Option.isSome_iff_exists.mp hr
      have hone : insert_one d t ⟨A, E⟩ a =
          Except.ok ⟨A ++ [⟨a.name, v, rk, a.url, d, a.timestamp, t⟩], E⟩ := by
        simp [insert_one, hae, hav, hark]
      have hstep : insert_loop d t ⟨A, E⟩ (a :: rest) =
          insert_loop d t ⟨A ++ [⟨a.name, v, rk, a.url, d, a.timestamp, t⟩], E⟩ rest := by
        rw [insert_loop, hone]
      have hrow : app_row d t a = some ⟨a.name, v, rk, a.url, d, a.timestamp, t⟩ := by
        simp [app_row, hae, hav, hark]
      have herow : err_row t a = none := by simp [err_row, hae]
      have hih := ih (A ++ [⟨a.name, v, rk, a.url, d, a.timestamp, t⟩]) E
        (fun b hb hbe => h b (List.mem_cons_of_mem a hb) hbe)
      rw [hstep, hih]
      simp [List.filterMap_cons, hrow, herow, List.append_assoc]

theorem import_ok_eq (t : String) (data : SnapshotJson) (db : DB)
    (h : ∀ a ∈ data.apps, a.error = none →
      a.version.isSome = true ∧ (python_int a.ranking).isSome = true) :
    import_json_to_db t data db = Except.ok
      ⟨(delete_phase (batch_date data) db).apps ++
          data.apps.filterMap (app_row (batch_date data) t),
        (delete_phase (batch_date data) db).errors ++
          data.apps.filterMap (err_row t)⟩ := by
  rw [import_json_to_db]
  cases hdp : delete_phase (batch_date data) db with
  | mk A E => rw [insert_loop_ok (batch_date data) t data.apps A E h]

theorem run_import_eq (t : String) (data : SnapshotJson) (db : DB)
    (h : ∀ a ∈ data.apps, a.error = none →
      a.version.isSome = true ∧ (python_int a.ranking).isSome = true) :
    run_import t data db =
      ⟨(delete_phase (batch_date data) db).apps ++
          data.apps.filterMap (app_row (batch_date data) t),
        (delete_phase (batch_date data) db).errors ++
          data.apps.filterMap (err_row t)⟩ := by
  rw [run_import, import_ok_eq t data db h]

theorem app_row_date (d t : String) (a : JsonRecord) (r : AppsRow)
    (hr : app_row d t a = some r) : r.date = d := by
  cases hae : a.error with
  | some e => simp [app_row, hae] at hr
  | none =>
    cases hav : a.version with
    | none => simp [app_row, hae, hav] at hr
    | some v =>
      cases hark : python_int a.ranking with
      | none => simp [app_row, hae, hav, hark] at hr
      | some rk =>
        simp only [app_row, hae, hav, hark, Option.some.injEq] at hr
        rw [← hr]

theorem err_row_fields (t : String) (a : JsonRecord) (r : ErrorsRow)
    (hr : err_row t a = some r) :
    r.timestamp = a.timestamp ∧ a.error = some r.error_message := by
  cases hae : a.error with
  | none => simp [err_row, hae] at hr
  | some e =>
    simp only [err_row, hae, Option.some.injEq] at hr
    rw [← hr]
    exact ⟨rfl, rfl⟩

theorem filterMap_app_row_content (d t t' : String) :
    ∀ l : List JsonRecord,
      (l.filterMap (app_row d t)).map apps_content =
        (l.filterMap (app_row d t')).map apps_content := by
  intro l
  induction l with
  | nil => rfl
  | cons a rest ih =>
    cases hae : a.error with
    | some e => simp [List.filterMap_cons, app_row, hae, ih]
    | none =>
      cases hav : a.version with
      | none => simp [List.filterMap_cons, app_row, hae, hav, ih]
      | some v =>
        cases hark : python_int a.ranking with
        | none => simp [List.filterMap_cons, app_row, hae, hav, hark, ih]
        | some rk =>
          simp [List.filterMap_cons, app_row, hae, hav, hark, apps_content, ih]

theorem filterMap_err_row_content (t t' : String) :
    ∀ l : List JsonRecord,
      (l.filterMap (err_row t)).map errors_content =
        (l.filterMap (err_row t')).map errors_content := by
  intro l
  induction l with
  | nil => rfl
  | cons a rest ih =>
    cases hae : a.error with
    | none => simp [List.filterMap_cons, err_row, hae, ih]
    | some e => simp [List.filterMap_cons, err_row, hae, errors_content, ih]

theorem filterMap_app_row_length (d t t' : String) (l : List JsonRecord) :
    (l.filterMap (app_row d t)).length = (l.filterMap (app_row d t')).length := by
  have := congrArg List.length (filterMap_app_row_content d t t' l)
  simpa using this

theorem filterMap_err_row_length (t t' : String) (l : List JsonRecord) :
    (l.filterMap (err_row t)).length = (l.filterMap (err_row t')).length := by
  have := congrArg List.length (filterMap_err_row_content t t' l)
  simpa using this

/-! ## Claims C1 and C2 -/

/-- C1: a snapshot containing a record without an `error` key but with
a missing `version` key makes `import_json_to_db` raise (`KeyError`
propagates out of the loader), and since the single commit never
happens, the durable database state is completely unchanged — no row
of that snapshot lands in `apps` or `errors`. -/
theorem c1_missing_version_aborts (t : String) (data : SnapshotJson) (db : DB)
    (h : ∃ a ∈ data.apps, a.error = none ∧ a.version = none) :
    (∃ e, import_json_to_db t data db = Except.error e) ∧
    run_import t data db = db := by
  obtain ⟨e, he⟩ := insert_loop_error (batch_date data) t data.apps
    (delete_phase (batch_date data) db) h
  refine ⟨⟨e, ?_⟩, ?_⟩
  · rw [import_json_to_db]
    exact he
  · simp [run_import, import_json_to_db, he]

/-- Witness for C1: loading a snapshot written by the scraper (which
never emits a `version` key) aborts and touches nothing. -/
theorem c1_missing_version_aborts_witness :
    (∃ a ∈ c1_bad_snapshot.apps, a.error = none ∧ a.version = none) ∧
    (∃ e, import_json_to_db "2024-01-02T09:00:00" c1_bad_snapshot DB.empty =
      Except.error e) ∧
    run_import "2024-01-02T09:00:00" c1_bad_snapshot DB.empty = DB.empty :=
  ⟨by decide,
   c1_missing_version_aborts "2024-01-02T09:00:00" c1_bad_snapshot DB.empty (by decide)⟩

/-- C2 (counterexample): loading the same snapshot twice is *not*
always equivalent to loading it once.  For a snapshot whose records are
all error records, the overwrite check (which counts same-date rows in
`apps` only) never fires, so the second load duplicates the `errors`
rows of the snapshot's batch date: two identical same-date rows after
two loads versus one after one load. -/
theorem c2_counterexample :
    (run_import "t2" c2_error_only_snapshot
        (run_import "t1" c2_error_only_snapshot DB.empty)).errors.length = 2 ∧
    (run_import "t1" c2_error_only_snapshot DB.empty).errors.length = 1 ∧
    ∀ r ∈ (run_import "t2" c2_error_only_snapshot
        (run_import "t1" c2_error_only_snapshot DB.empty)).errors,
      sqlite_date r.timestamp = some (batch_date c2_error_only_snapshot) := by
  decide

/-- C2 (amended): the load is replace-by-date and re-loading is
idempotent *provided the overwrite check fires and removes exactly the
previously inserted rows*: for a snapshot that contains at least one
non-error record (so the second load finds same-date `apps` rows),
whose records all load successfully, and whose error records carry
timestamps on the batch date, loading twice into a database that does
not pair same-date `errors` rows with an absence of same-date `apps`
rows leaves the same row data (all columns except the write-time
`created_at`) for the batch date as loading once, and the same total
row counts.  The unamended claim fails for error-only snapshots, whose
same-date `errors` rows are duplicated (see the counterexample). -/
theorem c2_amended_replace_by_date (t1 t2 : String) (data : SnapshotJson) (db : DB)
    (h1 : ∃ a ∈ data.apps, a.error = none)
    (h2 : ∀ a ∈ data.apps, a.error = none →
      a.version.isSome = true ∧ (python_int a.ranking).isSome = true)
    (h3 : ∀ a ∈ data.apps, a.error.isSome = true →
      sqlite_date a.timestamp = some (batch_date data))
    (h4 : db.apps.any (fun r => r.date == batch_date data) = true ∨
      ∀ r ∈ db.errors, sqlite_date r.timestamp ≠ some (batch_date data)) :
    ((run_import t2 data (run_import t1 data db)).apps.filter
        (fun r => r.date == batch_date data)).map apps_content =
      ((run_import t1 data db).apps.filter
        (fun r => r.date == batch_date data)).map apps_content ∧
    ((run_import t2 data (run_import t1 data db)).errors.filter
        (fun r => sqlite_date r.timestamp == some (batch_date data))).map errors_content =
      ((run_import t1 data db).errors.filter
        (fun r => sqlite_date r.timestamp == some (batch_date data))).map errors_content ∧
    (run_import t2 data (run_import t1 data db)).apps.length =
      (run_import t1 data db).apps.length ∧
    (run_import t2 data (run_import t1 data db)).errors.length =
      (run_import t1 data db).errors.length := by
  set d := batch_date data with hd
  -- the rows inserted by a load at write time t'
  have hinsA_date : ∀ t' : String, ∀ r ∈ data.apps.filterMap (app_row d t'),
      (r.date == d) = true := by
    intro t' r hr
    rcases List.mem_filterMap.mp hr with ⟨a, ha, har⟩
    exact beq_iff_eq.mpr (app_row_date d t' a r har)
  have hinsE_date : ∀ t' : String, ∀ r ∈ data.apps.filterMap (err_row t'),
      (sqlite_date r.timestamp == some d) = true := by
    intro t' r hr
    rcases List.mem_filterMap.mp hr with ⟨a, ha, har⟩
    obtain ⟨hts, hmsg⟩ := err_row_fields t' a r har
    have hsome : a.error.isSome = true := by rw [hmsg]; rfl
    rw [hts]
    exact beq_iff_eq.mpr (h3 a ha hsome)
  have hinsA_ne : ∀ t' : String, ∃ r, r ∈ data.apps.filterMap (app_row d t') ∧
      (r.date == d) = true := by
    intro t'
    obtain ⟨a, ha, hae⟩ := h1
    obtain ⟨hv, hrk⟩ := h2 a ha hae
    obtain ⟨v, hav⟩ := Option.isSome_iff_exists.mp hv
    obtain ⟨rk, hark⟩ := Option.isSome_iff_exists.mp hrk
    refine ⟨⟨a.name, v, rk, a.url, d, a.timestamp, t'⟩, ?_, by simp⟩
    exact List.mem_filterMap.mpr ⟨a, ha, by simp [app_row, hae, hav, hark]⟩
  -- the database left by the conditional delete of the first load
  obtain ⟨A', E', hA'eq, hA', hE'⟩ :
      ∃ A' E', delete_phase d db = ⟨A', E'⟩ ∧
        (∀ r ∈ A', (r.date == d) = false) ∧
        (∀ r ∈ E', (sqlite_date r.timestamp == some d) = false) := by
    cases hany : db.apps.any (fun r => r.date == d) with
    | false =>
      rcases h4 with h4l | h4r
      · rw [hany] at h4l
        exact absurd h4l (by simp)
      · refine ⟨db.apps, db.errors, by simp [delete_phase, hany], ?_, ?_⟩
        · intro r hr
          exact Bool.eq_false_iff.mpr (List.any_eq_false.mp hany r hr)
        · intro r hr
          exact beq_eq_false_iff_ne.mpr (h4r r hr)
    | true =>
      refine ⟨db.apps.filter (fun r => r.date != d),
        db.errors.filter (fun r => sqlite_date r.timestamp != some d),
        by simp [delete_phase, hany], ?_, ?_⟩
      · intro r hr
        have := (List.mem_filter.mp hr).2
        simpa [bne] using this
      · intro r hr
        have := (List.mem_filter.mp hr).2
        simpa [bne] using this
  -- shape of the database after the first load
  have h1run : run_import t1 data db =
      ⟨A' ++ data.apps.filterMap (app_row d t1), E' ++ data.apps.filterMap (err_row t1)⟩ := by
    rw [run_import_eq t1 data db h2, ← hd, hA'eq]
  -- the second load's delete restores ⟨A', E'⟩
  have hany2 : (run_import t1 data db).apps.any (fun r => r.date == d) = true := by
    rw [h1run]
    obtain ⟨r, hr, hrd⟩ := hinsA_ne t1
    exact List.any_eq_true.mpr ⟨r, List.mem_append.mpr (Or.inr hr), hrd⟩
  have hdel2 : delete_phase d (run_import t1 data db) = ⟨A', E'⟩ := by
    rw [delete_phase, if_pos hany2, h1run]
    have hfA : (A' ++ data.apps.filterMap (app_row d t1)).filter (fun r => r.date != d)
        = A' := by
      rw [List.filter_append]
      rw [List.filter_eq_self.mpr (fun r hr => by simpa [bne] using hA' r hr)]
      rw [List.filter_eq_nil_iff.mpr
        (fun r hr => by simp [bne, beq_iff_eq.mp (hinsA_date t1 r hr)])]
      simp
    have hfE : (E' ++ data.apps.filterMap (err_row t1)).filter
        (fun r => sqlite_date r.timestamp != some d) = E' := by
      rw [List.filter_append]
      rw [List.filter_eq_self.mpr (fun r hr => by simpa [bne] using hE' r hr)]
      rw [List.filter_eq_nil_iff.mpr
        (fun r hr => by simp [bne, beq_iff_eq.mp (hinsE_date t1 r hr)])]
      simp
    simp only [hfA, hfE]
  -- shape of the database after the second load
  have h2run : run_import t2 data (run_import t1 data db) =
      ⟨A' ++ data.apps.filterMap (app_row d t2), E' ++ data.apps.filterMap (err_row t2)⟩ := by
    rw [run_import_eq t2 data _ h2, ← hd, hdel2]
  -- filters of the two shapes reduce to the inserted rows
  have hfilA : ∀ t' : String,
      (A' ++ data.apps.filterMap (app_row d t')).filter (fun r => r.date == d) =
        data.apps.filterMap (app_row d t') := by
    intro t'
    rw [List.filter_append, List.filter_eq_nil_iff.mpr (fun r hr => by simp [hA' r hr]),
      List.filter_eq_self.mpr (fun r hr => hinsA_date t' r hr)]
    simp
  have hfilE : ∀ t' : String,
      (E' ++ data.apps.filterMap (err_row t')).filter
          (fun r => sqlite_date r.timestamp == some d) =
        data.apps.filterMap (err_row t') := by
    intro t'
    rw [List.filter_append, List.filter_eq_nil_iff.mpr (fun r hr => by simp [hE' r hr]),
      List.filter_eq_self.mpr (fun r hr => hinsE_date t' r hr)]
    simp
  refine ⟨?_, ?_, ?_, ?_⟩
  · rw [h2run, h1run]
    show ((A' ++ _).filter _).map _ = ((A' ++ _).filter _).map _
    rw [hfilA t2, hfilA t1]
    exact filterMap_app_row_content d t2 t1 data.apps
  · rw [h2run, h1run]
    show ((E' ++ _).filter _).map _ = ((E' ++ _).filter _).map _
    rw [hfilE t2, hfilE t1]
    exact filterMap_err_row_content t2 t1 data.apps
  · rw [h2run, h1run]
    show (A' ++ _).length = (A' ++ _).length
    rw [List.length_append, List.length_append, filterMap_app_row_length d t2 t1]
  · rw [h2run, h1run]
    show (E' ++ _).length = (E' ++ _).length
    rw [List.length_append, List.length_append, filterMap_err_row_length t2 t1]

/-- Witness for C2 (amended): re-loading a mixed snapshot into an empty
database changes nothing about the batch date's rows. -/
theorem c2_amended_replace_by_date_witness :
    ((run_import "t2" c2_mixed_snapshot
        (run_import "t1" c2_mixed_snapshot DB.empty)).apps.filter
        (fun r => r.date == batch_date c2_mixed_snapshot)).map apps_content =
      ((run_import "t1" c2_mixed_snapshot DB.empty).apps.filter
        (fun r => r.date == batch_date c2_mixed_snapshot)).map apps_content ∧
    ((run_import "t2" c2_mixed_snapshot
        (run_import "t1" c2_mixed_snapshot DB.empty)).errors.filter
        (fun r => sqlite_date r.timestamp == some (batch_date c2_mixed_snapshot))).map
        errors_content =
      ((run_import "t1" c2_mixed_snapshot DB.empty).errors.filter
        (fun r => sqlite_date r.timestamp == some (batch_date c2_mixed_snapshot))).map
        errors_content ∧
    (run_import "t2" c2_mixed_snapshot
        (run_import "t1" c2_mixed_snapshot DB.empty)).apps.length =
      (run_import "t1" c2_mixed_snapshot DB.empty).apps.length ∧
    (run_import "t2" c2_mixed_snapshot
        (run_import "t1" c2_mixed_snapshot DB.empty)).errors.length =
      (run_import "t1" c2_mixed_snapshot DB.empty).errors.length :=
  c2_amended_replace_by_date "t1" "t2" c2_mixed_snapshot DB.empty
    (by decide) (by decide) (by decide) (by decide)

/-! ## Lemmas about the snapshot writer -/

theorem decode_encode (r : ScrapeRecord) :
    decode_record (encode_record r) = some r := by
  cases r with
  | mk name ranking url timestamp error =>
    cases error with
    | none => rfl
    | some e => rfl

theorem decode_records_map :
    ∀ l : List ScrapeRecord, decode_records (l.map encode_record) = some l := by
  intro l
  induction l with
  | nil => rfl
  | cons r rest ih => simp [decode_records, decode_encode, ih]

theorem json_escape_id :
    ∀ cs : List Char,
      (∀ c ∈ cs, 0x20 ≤ c.toNat ∧ c ≠ '"' ∧ c ≠ '\\') →
      (cs.map json_escape_char).flatten = cs := by
  intro cs
  induction cs with
  | nil => intro h; rfl
  | cons c rest ih =>
    intro h
    obtain ⟨h32, hq, hb⟩ := h c (List.mem_cons_self c rest)
    have hn : c ≠ '\n' := by
      intro hc
      rw [hc] at h32
      exact absurd h32 (by decide)
    have ht : c ≠ '\t' := by
      intro hc
      rw [hc] at h32
      exact absurd h32 (by decide)
    have hr : c ≠ '\r' := by
      intro hc
      rw [hc] at h32
      exact absurd h32 (by decide)
    have hbs : c ≠ '\x08' := by
      intro hc
      rw [hc] at h32
      exact absurd h32 (by decide)
    have hf : c ≠ '\x0c' := by
      intro hc
      rw [hc] at h32
      exact absurd h32 (by decide)
    have hlt : ¬ c.toNat < 0x20 := by omega
    simp only [List.map_cons, List.flatten_cons, json_escape_char,
      if_neg hq, if_neg hb, if_neg hn, if_neg ht, if_neg hr, if_neg hbs, if_neg hf,
      if_neg hlt]
    rw [ih (fun x hx => h x (List.mem_cons_of_mem c hx))]
    rfl

/-! ## Claim C7 -/

/-- C7: writing a snapshot with `save_to_json` and reading the file
back yields field-for-field equal records in exactly the order the
caller supplied (the writer embeds the list as given, with no re-sort
and no mutation), and string content whose characters are printable
and need no JSON escape — all non-ASCII text included — is emitted
literally by the `ensure_ascii=False` serializer. -/
theorem c7_roundtrip (isoformat : Nat → String) (utc : Nat)
    (recs : List ScrapeRecord) (s : String)
    (hs : ∀ c ∈ s.data, 0x20 ≤ c.toNat ∧ c ≠ '"' ∧ c ≠ '\\') :
    load_snapshot (save_to_json isoformat utc recs) =
      some (get_taiwan_time isoformat utc, recs) ∧
    json_dump_string s = "\"" ++ s ++ "\"" := by
  constructor
  · have hshape : load_snapshot (save_to_json isoformat utc recs) =
        match decode_records (recs.map encode_record) with
        | some rs => some (get_taiwan_time isoformat utc, rs)
        | none => none := rfl
    rw [hshape, decode_records_map recs]
  · obtain ⟨cs⟩ := s
    rw [json_dump_string]
    simp only [String.data] at hs ⊢
    rw [json_escape_id cs hs]
    rfl

/-- Witness for C7: a snapshot holding a sentinel error record with
non-ASCII text round-trips, and the serializer emits `未知` verbatim. -/
theorem c7_roundtrip_witness :
    load_snapshot (save_to_json (fun _ => "2024-01-01T08:00:00") 0
        [⟨"未知", "999999", "u", "ts", some "boom"⟩]) =
      some (get_taiwan_time (fun _ => "2024-01-01T08:00:00") 0,
        [⟨"未知", "999999", "u", "ts", some "boom"⟩]) ∧
    json_dump_string "未知" = "\"" ++ "未知" ++ "\"" :=
  c7_roundtrip (fun _ => "2024-01-01T08:00:00") 0
    [⟨"未知", "999999", "u", "ts", some "boom"⟩] "未知" (by decide)

/-! ## Lemmas about file selection -/

theorem foldl_latest :
    ∀ (rest : List FsFile) (f : FsFile),
      ((rest.foldl (fun best g => if best.mtime < g.mtime then g else best) f) = f ∨
        (rest.foldl (fun best g => if best.mtime < g.mtime then g else best) f) ∈ rest) ∧
      f.mtime ≤ (rest.foldl (fun best g => if best.mtime < g.mtime then g else best) f).mtime ∧
      ∀ g ∈ rest,
        g.mtime ≤ (rest.foldl (fun best g => if best.mtime < g.mtime then g else best) f).mtime := by
  intro rest
  induction rest with
  | nil => intro f; exact ⟨Or.inl rfl, Nat.le_refl _, by simp⟩
  | cons g t ih =>
    intro f
    simp only [List.foldl_cons]
    obtain ⟨hmem, hle, hall⟩ := ih (if f.mtime < g.mtime then g else f)
    have hstep : f.mtime ≤ (if f.mtime < g.mtime then g else f).mtime := by
      by_cases hc : f.mtime < g.mtime
      · rw [if_pos hc]; exact Nat.le_of_lt hc
      · rw [if_neg hc]
    have hstepg : g.mtime ≤ (if f.mtime < g.mtime then g else f).mtime := by
      by_cases hc : f.mtime < g.mtime
      · rw [if_pos hc]
      · rw [if_neg hc]; exact Nat.le_of_not_lt hc
    refine ⟨?_, Nat.le_trans hstep hle, ?_⟩
    · rcases hmem with hm | hm
      · by_cases hc : f.mtime < g.mtime
        · rw [if_pos hc] at hm ⊢
          rw [hm]
          exact Or.inr (List.mem_cons_self g t)
        · rw [if_neg hc] at hm ⊢
          exact Or.inl hm
      · exact Or.inr (List.mem_cons_of_mem g hm)
    · intro x hx
      rcases List.mem_cons.mp hx with rfl | hxt
      · exact Nat.le_trans hstepg hle
      · exact hall x hxt

/-! ## Claims C8 and C9 -/

/-- C8: with no explicit path, the load pipeline picks the snapshot
file with the greatest modification time among those matching the
snapshot glob; when no file matches, `get_latest_json_file` returns
`None` and `main` returns before `create_database`, leaving the
database state untouched — no table creation, deletion or insertion. -/
theorem c8_latest_file_selection (fs : List FsFile) (readSnap : String → SnapshotJson)
    (current_time : String) (dbstate : Option DB) :
    ((∀ f ∈ fs, is_snapshot_file f.path = false) →
      get_latest_json_file fs = none ∧
      json_to_db_main [] fs readSnap current_time dbstate = dbstate) ∧
    (∀ p, get_latest_json_file fs = some p →
      ∃ f ∈ fs, f.path = p ∧ is_snapshot_file f.path = true ∧
        ∀ g ∈ fs, is_snapshot_file g.path = true → g.mtime ≤ f.mtime) := by
  constructor
  · intro hnone
    have hfil : fs.filter (fun f => is_snapshot_file f.path) = [] :=
      List.filter_eq_nil_iff.mpr (fun f hf => by simp [hnone f hf])
    have hlat : get_latest_json_file fs = none := by
      rw [get_latest_json_file, hfil]
    exact ⟨hlat, by simp [json_to_db_main, hlat]⟩
  · intro p hp
    rw [get_latest_json_file] at hp
    cases hfil : fs.filter (fun f => is_snapshot_file f.path) with
    | nil =>
      rw [hfil] at hp
      exact absurd hp (by simp)
    | cons f0 rest =>
      rw [hfil] at hp
      obtain ⟨hmem, hle, hall⟩ := foldl_latest rest f0
      set m := rest.foldl (fun best g => if best.mtime < g.mtime then g else best) f0 with hm
      have hpm : m.path = p := by simpa using hp
      have hmfil : m ∈ fs.filter (fun f => is_snapshot_file f.path) := by
        rw [hfil]
        rcases hmem with h | h
        · rw [h]; exact List.mem_cons_self f0 rest
        · exact List.mem_cons_of_mem f0 h
      have hmfs := List.mem_filter.mp hmfil
      refine ⟨m, hmfs.1, hpm, hmfs.2, ?_⟩
      intro g hg hgsnap
      have hgfil : g ∈ fs.filter (fun f => is_snapshot_file f.path) :=
        List.mem_filter.mpr ⟨hg, hgsnap⟩
      rw [hfil] at hgfil
      rcases List.mem_cons.mp hgfil with rfl | hgt
      · exact hle
      · exact hall g hgt

/-- Witness for C8: a directory with no snapshot file resolves to
`None` and the database state is returned unchanged. -/
theorem c8_latest_file_selection_witness :
    get_latest_json_file [⟨"readme.md", 3⟩] = none ∧
    json_to_db_main [] [⟨"readme.md", 3⟩] (fun _ => ⟨"", []⟩) "t" (some DB.empty) =
      some DB.empty :=
  (c8_latest_file_selection [⟨"readme.md", 3⟩] (fun _ => ⟨"", []⟩) "t"
    (some DB.empty)).1 (by decide)

/-- C9: `query_apps` returns at most N rows, ascending by the integer
`ranking` column, and `query_errors` returns at most N rows, descending
by `timestamp` (string comparison); loading the two-record scenario
snapshot (rankings 5 and 1) and querying the top 2 yields the
ranking-1 record before the ranking-5 record. -/
theorem c9_query_order (db : DB) (n : Nat) :
    (query_apps db n).length ≤ n ∧
    (query_apps db n).Pairwise (fun a b => a.ranking ≤ b.ranking) ∧
    (query_errors db n).length ≤ n ∧
    (query_errors db n).Pairwise (fun a b => b.timestamp ≤ a.timestamp) ∧
    query_apps (run_import "2024-01-02T09:00:00" scenario_snapshot DB.empty) 2 =
      [⟨"B", "1.0", 1, "u2", "2024-01-01", "2024-01-01T00:00:01"⟩,
       ⟨"A", "1.0", 5, "u1", "2024-01-01", "2024-01-01T00:00:00"⟩] := by
  have htotalA : ∀ x y : AppsRow,
      decide (x.ranking ≤ y.ranking) = true ∨ decide (y.ranking ≤ x.ranking) = true := by
    intro x y
    rcases le_total x.ranking y.ranking with h | h
    · exact Or.inl (decide_eq_true h)
    · exact Or.inr (decide_eq_true h)
  have htransA : ∀ x y z : AppsRow,
      decide (x.ranking ≤ y.ranking) = true → decide (y.ranking ≤ z.ranking) = true →
      decide (x.ranking ≤ z.ranking) = true := by
    intro x y z hxy hyz
    exact decide_eq_true (le_trans (of_decide_eq_true hxy) (of_decide_eq_true hyz))
  have htotalE : ∀ x y : ErrorsRow,
      decide (y.timestamp ≤ x.timestamp) = true ∨
        decide (x.timestamp ≤ y.timestamp) = true := by
    intro x y
    rcases le_total y.timestamp x.timestamp with h | h
    · exact Or.inl (decide_eq_true h)
    · exact Or.inr (decide_eq_true h)
  have htransE : ∀ x y z : ErrorsRow,
      decide (y.timestamp ≤ x.timestamp) = true →
      decide (z.timestamp ≤ y.timestamp) = true →
      decide (z.timestamp ≤ x.timestamp) = true := by
    intro x y z hxy hyz
    exact decide_eq_true (le_trans (of_decide_eq_true hyz) (of_decide_eq_true hxy))
  refine ⟨?_, ?_, ?_, ?_, by decide⟩
  · simp only [query_apps, List.length_map, List.length_take]
    exact Nat.min_le_left n _
  · rw [query_apps, List.pairwise_map]
    have hp := py_sorted_pairwise htotalA htransA db.apps
    exact (List.Pairwise.sublist (List.take_sublist n _) hp).imp
      (fun h => of_decide_eq_true h)
  · simp only [query_errors, List.length_map, List.length_take]
    exact Nat.min_le_left n _
  · rw [query_errors, List.pairwise_map]
    have hp := @py_sorted_pairwise ErrorsRow
      (fun a b => decide (b.timestamp ≤ a.timestamp)) htotalE htransE db.errors
    exact (List.Pairwise.sublist (List.take_sublist n _) hp).imp
      (fun h => of_decide_eq_true h)
